import Mathlib

/-!
# Verification of the canvas-course-page-view-count pipeline

Shallow embedding of the two source files of the repository:

* `process_into_page_views_by_day.py` — the Timezone Aggregator
  (`convert_to_vancouver_time`, `process_csv`);
* `index.py` — the Paginated Fetcher (`make_request`) and the Course
  Activity Harvester (`process_course`).

Timestamps are modelled as minutes since the Unix epoch (the raw data is
hour-granular, so minute resolution is exact), and a timezone as a function
from a UTC instant to its offset in minutes, which covers fixed offsets as
well as DST-style offsets that depend on the instant.  A calendar day is the
floor of local minutes by 1440, i.e. days since 1970-01-01 in local time;
`America/Vancouver` in January 2024 is the constant offset -480 (UTC-8).

The file is organised as definitions first, then the theorems about them.
-/

namespace PageViews

/-! ## Timezone Aggregator (`process_into_page_views_by_day.py`) -/

/-- One raw row of a harvested CSV: `{student_id, student_name, date, page_views}`.
`date` is the UTC timestamp of the hour bucket, in minutes since the epoch. -/
structure ActivityRecord where
  student_id : Int
  student_name : String
  date : Int
  page_views : Int
deriving DecidableEq, Repr

/-- One aggregated output row: `{student_id, student_name, day, page_views}`.
`day` is a local calendar day, counted in days since 1970-01-01. -/
structure AggregatedRecord where
  student_id : Int
  student_name : String
  day : Int
  page_views : Int
deriving DecidableEq, Repr

/-- `convert_to_vancouver_time` followed by `.dt.date`: shift the UTC instant
`t` by the local offset `ofs t` (minutes) and truncate to the calendar day.
`Int.fdiv` floors toward negative infinity, as calendar days do. -/
def localDay (ofs : Int → Int) (t : Int) : Int :=
  (t + ofs t).fdiv 1440

/-- The groupby key of `process_csv`: `['student_id', 'student_name', 'day']`. -/
def aggKey (ofs : Int → Int) (r : ActivityRecord) : Int × String × Int :=
  (r.student_id, r.student_name, localDay ofs r.date)

/-- `df.groupby(['student_id','student_name','day'], as_index=False)['page_views'].sum()`:
one output row per distinct key, holding the sum of `page_views` over the raw
rows with that key.  (pandas emits the groups sorted by key; the spec makes no
ordering promise and none of the properties below depend on the group order,
so the embedding lists the groups in first-occurrence order.) -/
def aggregate (ofs : Int → Int) (rows : List ActivityRecord) : List AggregatedRecord :=
  ((rows.map (aggKey ofs)).dedup).map fun k =>
    { student_id := k.1
      student_name := k.2.1
      day := k.2.2
      page_views := ((rows.filter fun r => decide (aggKey ofs r = k)).map
        (·.page_views)).sum }

/-- The CSV written by `process_csv`: a header line and the data rows. -/
structure CsvOut where
  header : List String
  rows : List AggregatedRecord
deriving DecidableEq, Repr

/-- `process_csv`: on an empty frame write only the four-column header;
otherwise convert every `date` to Vancouver time, bucket by local day and
group-sum `page_views`.  (The output header is the same in both branches.) -/
def process_csv (ofs : Int → Int) (rows : List ActivityRecord) : CsvOut :=
  if rows.isEmpty then
    { header := ["student_id", "student_name", "day", "page_views"], rows := [] }
  else
    { header := ["student_id", "student_name", "day", "page_views"]
      rows := aggregate ofs rows }

/-- Total page views of a list of aggregated rows. -/
def sumAgg (l : List AggregatedRecord) : Int :=
  (l.map (·.page_views)).sum

/-- Total page views of a list of raw rows. -/
def sumRaw (l : List ActivityRecord) : Int :=
  (l.map (·.page_views)).sum

/-- Minutes since the epoch of `2024-01-01T23:30:00Z` (day 19723 since
1970-01-01, plus 23 h 30 min). -/
def t20240101T2330Z : Int := 19723 * 1440 + 23 * 60 + 30

/-- Minutes since the epoch of `2024-01-02T08:00:00Z`. -/
def t20240102T0800Z : Int := 19724 * 1440 + 8 * 60

/-- The two raw records of the aggregation round-trip example. -/
def boundaryExample : List ActivityRecord :=
  [{ student_id := 1, student_name := "A", date := t20240101T2330Z, page_views := 5 },
   { student_id := 1, student_name := "A", date := t20240102T0800Z, page_views := 3 }]

end PageViews

/-! ## Paginated Fetcher (`make_request` in `index.py`)

The loop `while url:` issues one HTTP request per iteration.  We model the
stream of responses the server would give to the successive requests as a
`List Resp` and the items as opaque values (`Nat`).  The observable outcome is
the returned item list together with the number of `time.sleep(0.2)` calls
performed, or the fact that an exception propagated. -/

namespace Fetcher

/-- The parsed view of one 2xx response body, in the order `make_request`
inspects it: whitespace-only text, non-empty text that is not valid JSON, a
JSON array of items, or a single JSON object. -/
inductive Body where
  | empty
  | invalid
  | arr (items : List Nat)
  | obj (item : Nat)
deriving DecidableEq, Repr

/-- The outcome of one `requests.get(...)` + `response.raise_for_status()`
pair: a timeout, a connection-level error or non-2xx status
(`RequestException`), or a 2xx response carrying a body and the presence of a
`next` relation in its `Link` header. -/
inductive Resp where
  | timeout
  | httpError
  | page (body : Body) (hasNext : Bool)
deriving DecidableEq, Repr

/-- The observable behaviour of a `make_request` call: return the accumulated
items after `sleeps` rate-limiting sleeps, or let an exception propagate.
`outOfResponses` is a model artifact: the loop would issue more requests than
the given response stream describes. -/
inductive FetchOut where
  | ok (items : List Nat) (sleeps : Nat)
  | raised (sleeps : Nat)
  | outOfResponses
deriving DecidableEq, Repr

/-- The `while url:` loop of `make_request`, consuming one response per
iteration.  `acc` is `all_items` so far and `s` the number of
`time.sleep(0.2)` calls performed.  A timeout breaks and returns `acc`; a
`RequestException` re-raises; an empty body breaks; invalid JSON re-raises; a
parsed body is appended (an object as a one-element list) and the loop either
follows the `next` link — sleeping once before the next request — or breaks
without sleeping. -/
def make_request : List Resp → List Nat → Nat → FetchOut
  | [], _, _ => .outOfResponses
  | .timeout :: _, acc, s => .ok acc s
  | .httpError :: _, _, s => .raised s
  | .page .empty _ :: _, acc, s => .ok acc s
  | .page .invalid _ :: _, _, s => .raised s
  | .page (.arr its) next :: rest, acc, s =>
      if next then make_request rest (acc ++ its) (s + 1) else .ok (acc ++ its) s
  | .page (.obj it) next :: rest, acc, s =>
      if next then make_request rest (acc ++ [it]) (s + 1) else .ok (acc ++ [it]) s

/-- The items a body contributes when it parses: an array contributes itself,
a single object a one-element list, and an empty or unparsable body nothing. -/
def pageItems : Body → Option (List Nat)
  | .empty => none
  | .invalid => none
  | .arr its => some its
  | .obj it => some [it]

/-- The response stream of a fully successful `N`-page fetch: every page but
the last carries a `next` link, the last does not. -/
def mkSeq : List Body → List Resp
  | [] => []
  | [b] => [.page b false]
  | b :: b2 :: rest => .page b true :: mkSeq (b2 :: rest)

/-- Ordered concatenation of every page's items. -/
def concatItems (bs : List Body) : List Nat :=
  bs.flatMap fun b => (pageItems b).getD []

/-- Does this response terminate the loop by raising? (`RequestException`
from a connection failure or non-2xx status, or a non-empty body that is not
valid JSON.) -/
def raisesReq : Resp → Bool
  | .httpError => true
  | .page .invalid _ => true
  | _ => false

/-- Does this response let the loop continue to a further request? (a 2xx
page whose body parses and which carries a `next` link.) -/
def continuesReq : Resp → Bool
  | .page b true => (pageItems b).isSome
  | _ => false

/-- The claim's characterisation of when a fetch raises: some request of the
chain fails with a non-timeout error or unparsable body, every earlier
response having continued the chain. -/
def raisesSpec : List Resp → Bool
  | [] => false
  | r :: rest => raisesReq r || (continuesReq r && raisesSpec rest)

end Fetcher

/-! ## Course Activity Harvester (`process_course` in `index.py`)

`process_course` makes a sequence of external calls — `get_course`,
`get_course_students`, `open`, and `get_student_activity` per student — whose
outcomes we model as an environment.  The observable effect is the output
file: absent, or present with its name and data rows (a present file always
carries the header row, written by `writer.writeheader()` right after the
file is opened). -/

namespace Harvester

/-- A row of the students list returned by `get_course_students`; `name` is
`None` when the user object has no `name` field (`student.get('name', 'Unknown')`). -/
structure Student where
  id : Int
  name : Option String
deriving DecidableEq, Repr

/-- The outcome of the `get_course` call at the top of `process_course`:
`fetchErr` — it raised (network error, invalid JSON, or the empty-result
`ValueError` that `get_course` itself raises); `nonDict` — it returned a
value that is not a dictionary (a JSON list whose first element is not an
object); `dict name` — a course object, with its optional `name` field. -/
inductive CourseRes where
  | fetchErr
  | nonDict
  | dict (name : Option String)
deriving DecidableEq, Repr

/-- The outcome of `get_student_activity` for one student: the call raised;
it returned a falsy or non-dictionary value (`No activity data`); or it
returned a dictionary whose `page_views` mapping is the given association
list (`[]` when the key is missing or maps to an empty/falsy value). -/
inductive ActRes where
  | fetchRaise
  | noData
  | withPv (pv : List (String × Int))
deriving DecidableEq, Repr

/-- The environment of one `process_course` call: the course-metadata
outcome, the student-enumeration outcome (`get_course_students` may raise),
whether opening the output file succeeds, and each student's activity
outcome, keyed by student id. -/
structure HarvestEnv where
  course : CourseRes
  students : Except Unit (List Student)
  openFile : Except Unit Unit
  activity : Int → ActRes

/-- One data row written to the per-course CSV. -/
structure Row where
  student_id : Int
  student_name : String
  date : String
  page_views : Int
deriving DecidableEq, Repr

/-- The filesystem effect of `process_course`: no output file, or an output
file with the given name, the header row, and the given data rows. -/
inductive FileOut where
  | none
  | file (name : String) (rows : List Row)
deriving DecidableEq, Repr

/-- `safe_name = "".join(c if c.isalnum() else "_" for c in course_name)`:
keep alphanumeric characters, replace every other character by one
underscore. -/
def safe_name (s : String) : String :=
  ⟨s.data.map fun c => if c.isAlphanum then c else '_'⟩

/-- `filename = f"{course_id}_{safe_name}_activity.csv"`. -/
def courseFileName (cid : Int) (cname : String) : String :=
  toString cid ++ "_" ++ safe_name cname ++ "_activity.csv"

/-- The rows the per-student loop body writes for one student: none if the
activity fetch raised (caught by the per-student handler) or returned no
usable data, else one row per `(timestamp, count)` pair of the `page_views`
mapping, sharing the student's id and name
(`student.get('name', 'Unknown')`). -/
def studentRows (act : Int → ActRes) (s : Student) : List Row :=
  match act s.id with
  | .fetchRaise => []
  | .noData => []
  | .withPv pv => pv.map fun dv =>
      { student_id := s.id
        student_name := s.name.getD "Unknown"
        date := dv.1
        page_views := dv.2 }

/-- The body of `process_course` inside its outermost `try`: resolve course
metadata (its own inner `try` returns silently on failure or on a non-dict
result), derive the output filename, enumerate students, open the file and
write the header, then run the per-student loop whose failures are caught
per student.  An `Except.error` models an exception reaching the outermost
handler; it can arise only from student enumeration or from opening the
output file, both of which happen before anything is written. -/
def processCourseBody (cid : Int) (env : HarvestEnv) : Except Unit FileOut :=
  match env.course with
  | .fetchErr => .ok .none
  | .nonDict => .ok .none
  | .dict nm =>
    let course_name := nm.getD ("unknown-" ++ toString cid)
    let fname := courseFileName cid course_name
    match env.students with
    | .error e => .error e
    | .ok students =>
      match env.openFile with
      | .error e => .error e
      | .ok _ => .ok (.file fname (students.flatMap (studentRows env.activity)))

/-- `process_course`: the body wrapped in the outermost
`try ... except Exception` — an exception reaching it is logged and the
function returns normally, with no file written. -/
def process_course (cid : Int) (env : HarvestEnv) : Except Unit FileOut :=
  match processCourseBody cid env with
  | .ok out => .ok out
  | .error _ => .ok .none

/-- Three enrolled students. -/
def threeStudents : List Student :=
  [{ id := 1, name := some "S1" }, { id := 2, name := some "S2" },
   { id := 3, name := some "S3" }]

/-- Activity outcomes where student 2's fetch raises and every other student
has one hour bucket of 4 views. -/
def actOf : Int → ActRes := fun i =>
  if i = 2 then .fetchRaise else .withPv [("2024-01-01T00:00:00Z", 4)]

/-- The environment of the three-student scenario. -/
def env3 : HarvestEnv :=
  { course := .dict (some "C101"), students := .ok threeStudents
    openFile := .ok (), activity := actOf }

/-- An environment where course metadata resolves fine but
`get_course_students` raises. -/
def envStudentsFail : HarvestEnv :=
  { course := .dict (some "C101"), students := .error ()
    openFile := .ok (), activity := fun _ => .noData }

/-- An environment where course-metadata resolution itself fails. -/
def envMetaFail : HarvestEnv :=
  { course := .fetchErr, students := .ok [], openFile := .ok ()
    activity := fun _ => .noData }

end Harvester

/-! ## Theorems

### List grouping lemmas

`process_csv` groups rows by key and sums within each group; these lemmas show
the group sums recombine into the plain sum over the rows. -/

/-- Splitting a sum over a list by a Boolean predicate. -/
theorem sum_filter_split {R : Type} (p : R → Bool) (f : R → Int) :
    ∀ l : List R,
      ((l.filter p).map f).sum + ((l.filter fun a => !p a).map f).sum = (l.map f).sum
  | [] => by simp
  | a :: l => by
    rcases h : p a <;>
      simp [List.filter_cons, h, sum_filter_split p f l, add_assoc, add_left_comm]

/-- Summing the per-group sums over a duplicate-free key list that covers every
row equals the direct sum over the rows, restricted to any key predicate `P`. -/
theorem sum_groups {R K : Type} [DecidableEq K] (key : R → K) (f : R → Int) (P : K → Bool) :
    ∀ (ks : List K) (rows : List R), ks.Nodup → (∀ r ∈ rows, key r ∈ ks) →
      ((ks.filter P).map fun k =>
          ((rows.filter fun r => decide (key r = k)).map f).sum).sum
        = ((rows.filter fun r => P (key r)).map f).sum
  | [], rows, _, hcov => by
    have hrows : rows = [] := by
      cases rows with
      | nil => rfl
      | cons a l => exact absurd (hcov a (List.mem_cons_self a l)) (List.not_mem_nil (key a))
    simp [hrows]
  | k :: ks, rows, hnd, hcov => by
    have hk : k ∉ ks := (List.nodup_cons.mp hnd).1
    have hnd' : ks.Nodup := (List.nodup_cons.mp hnd).2
    set rows' : List R := rows.filter fun r => !decide (key r = k) with hrows'
    have hcov' : ∀ r ∈ rows', key r ∈ ks := by
      intro r hr
      have hmem := List.mem_of_mem_filter hr
      have hne : ¬ key r = k := by
        have := List.of_mem_filter hr
        simpa using this
      rcases List.mem_cons.mp (hcov r hmem) with h | h
      · exact absurd h hne
      · exact h
    have ih := sum_groups key f P ks rows' hnd' hcov'
    have hgrp : ∀ k' ∈ ks,
        (rows'.filter fun r => decide (key r = k')) =
          (rows.filter fun r => decide (key r = k')) := by
      intro k' hk'
      rw [hrows', List.filter_filter]
      apply List.filter_congr
      intro r _
      rcases h : decide (key r = k') with _ | _
      · simp
      · have : key r = k' := of_decide_eq_true h
        have : ¬ key r = k := by
          intro hh
          exact hk (hh ▸ this ▸ hk')
        simp [this]
    have hmapeq : (ks.filter P).map
          (fun k' => ((rows.filter fun r => decide (key r = k')).map f).sum)
        = (ks.filter P).map
          (fun k' => ((rows'.filter fun r => decide (key r = k')).map f).sum) := by
      apply List.map_congr_left
      intro k' hk'
      rw [hgrp k' (List.mem_of_mem_filter hk')]
    have hsplit := sum_filter_split (fun r => decide (key r = k)) f
      (rows.filter fun r => P (key r))
    have hB : (rows.filter fun r => P (key r)).filter (fun r => !decide (key r = k))
        = rows'.filter fun r => P (key r) := by
      rw [hrows', List.filter_filter, List.filter_filter]
      apply List.filter_congr
      intro r _
      exact Bool.and_comm _ _
    rw [hB] at hsplit
    by_cases hPk : P k = true
    · have hA : (rows.filter fun r => P (key r)).filter (fun r => decide (key r = k))
          = rows.filter (fun r => decide (key r = k)) := by
        rw [List.filter_filter]
        apply List.filter_congr
        intro r _
        rcases h : decide (key r = k) with _ | _
        · simp
        · have : key r = k := of_decide_eq_true h
          simp [this, hPk]
      rw [hA] at hsplit
      rw [List.filter_cons, if_pos hPk, List.map_cons, List.sum_cons, hmapeq, ih]
      exact hsplit
    · have hA : (rows.filter fun r => P (key r)).filter (fun r => decide (key r = k))
          = [] := by
        rw [List.filter_filter]
        apply List.filter_eq_nil_iff.mpr
        intro r _
        rcases h : decide (key r = k) with _ | _
        · simp
        · have : key r = k := of_decide_eq_true h
          simp [this, hPk]
      rw [hA] at hsplit
      rw [List.filter_cons, if_neg hPk, hmapeq, ih, ← hsplit]
      simp

/-- Filtering the image of a map is mapping the pulled-back filter. -/
theorem filter_of_map {α β : Type} (f : α → β) (p : β → Bool) :
    ∀ l : List α, (l.map f).filter p = (l.filter fun a => p (f a)).map f
  | [] => rfl
  | a :: l => by
    rcases h : p (f a) <;>
      simp [List.filter_cons, h, filter_of_map f p l]

namespace PageViews

/-! ### Timezone Aggregator theorems -/

/-- C1: for every raw input CSV and every student in it, the sum of
`page_views` over all rows `process_csv` emits for that student equals the sum
of `page_views` over all raw input rows for that student, for an arbitrary
offset function `ofs` (hence for arbitrary timestamps, including those whose
local conversion crosses a UTC day boundary): the conversion redistributes
rows across day buckets but never drops or duplicates counts. -/
theorem aggregation_preserves_student_totals (ofs : Int → Int)
    (rows : List ActivityRecord) (sid : Int) :
    sumAgg (((process_csv ofs rows).rows).filter fun a => decide (a.student_id = sid))
      = sumRaw (rows.filter fun r => decide (r.student_id = sid)) := by
  by_cases hrows : rows.isEmpty = true
  · have h0 : rows = [] := by
      cases rows with
      | nil => rfl
      | cons a l => simp [List.isEmpty] at hrows
    simp [h0, process_csv, sumAgg, sumRaw]
  · unfold process_csv
    rw [if_neg hrows]
    unfold aggregate sumAgg sumRaw
    rw [filter_of_map, List.map_map]
    exact sum_groups (aggKey ofs) (·.page_views) (fun k => decide (k.1 = sid))
      ((rows.map (aggKey ofs)).dedup) rows (List.nodup_dedup _)
      (fun r hr => List.mem_dedup.mpr (List.mem_map_of_mem _ hr))

/-- C2 (counterexample): at offset UTC-8 (−480 minutes) the aggregated output
for the records `(1,"A",2024-01-01T23:30:00Z,5)` and
`(1,"A",2024-01-02T08:00:00Z,3)` is NOT the single row `(1,"A",2024-01-01,8)`
that the claim requires: `08:00Z` minus eight hours is exactly local midnight
of 2024-01-02 (day 19724), so the second record does not fall on 2024-01-01
(day 19723). -/
theorem boundary_example_not_single_row :
    (process_csv (fun _ => -480) boundaryExample).rows
      ≠ [{ student_id := 1, student_name := "A", day := 19723, page_views := 8 }] := by
  decide

/-- C2 (amended): at offset UTC-8 the first record falls on local day
2024-01-01 (19723) but the second on local day 2024-01-02 (19724), and the
aggregated output is exactly the two rows `(1,"A",2024-01-01,5)` and
`(1,"A",2024-01-02,3)`. -/
theorem boundary_example_two_rows :
    process_csv (fun _ => -480) boundaryExample
      = { header := ["student_id", "student_name", "day", "page_views"]
          rows := [{ student_id := 1, student_name := "A", day := 19723, page_views := 5 },
                   { student_id := 1, student_name := "A", day := 19724, page_views := 3 }] } := by
  decide

/-- C7: aggregating an input CSV with zero data rows produces an output CSV
containing only the four-column header `student_id, student_name, day,
page_views` and zero data rows (and, the embedding being total, no error). -/
theorem process_csv_empty_input (ofs : Int → Int) :
    process_csv ofs []
      = { header := ["student_id", "student_name", "day", "page_views"], rows := [] } :=
  rfl

end PageViews

namespace Fetcher

/-! ### Paginated Fetcher theorems -/

/-- On a fully successful page sequence the loop returns the accumulator
extended by the concatenation of all pages' items, sleeping once per page
except the last. -/
theorem make_request_mkSeq :
    ∀ (bs : List Body) (acc : List Nat) (s : Nat), bs ≠ [] →
      (∀ b ∈ bs, (pageItems b).isSome) →
      make_request (mkSeq bs) acc s = .ok (acc ++ concatItems bs) (s + (bs.length - 1))
  | [], _, _, h1, _ => absurd rfl h1
  | [b], acc, s, _, h2 => by
    have hb := h2 b (List.mem_cons_self b [])
    cases b with
    | empty => simp [pageItems] at hb
    | invalid => simp [pageItems] at hb
    | arr its => simp [mkSeq, make_request, concatItems, pageItems]
    | obj it => simp [mkSeq, make_request, concatItems, pageItems]
  | b :: b2 :: rest, acc, s, _, h2 => by
    have hb := h2 b (List.mem_cons_self b (b2 :: rest))
    have h2' : ∀ x ∈ b2 :: rest, (pageItems x).isSome := fun x hx =>
      h2 x (List.mem_cons_of_mem b hx)
    have ih := make_request_mkSeq (b2 :: rest) (acc ++ (pageItems b).getD []) (s + 1)
      (by simp) h2'
    cases b with
    | empty => simp [pageItems] at hb
    | invalid => simp [pageItems] at hb
    | arr its =>
      rw [mkSeq]
      show make_request (Resp.page (Body.arr its) true :: mkSeq (b2 :: rest)) acc s = _
      rw [make_request, if_pos rfl]
      rw [show (pageItems (Body.arr its)).getD [] = its from rfl] at ih
      rw [ih]
      simp [concatItems, pageItems, List.flatMap_cons]
      omega
    | obj it =>
      rw [mkSeq]
      show make_request (Resp.page (Body.obj it) true :: mkSeq (b2 :: rest)) acc s = _
      rw [make_request, if_pos rfl]
      rw [show (pageItems (Body.obj it)).getD [] = [it] from rfl] at ih
      rw [ih]
      simp [concatItems, pageItems, List.flatMap_cons]
      omega

/-- C3: for every sequence of N successfully fetched pages the fetcher returns
exactly the ordered concatenation of every page's items, a single JSON object
counting as a one-element sequence (`pageItems (.obj it) = some [it]`). -/
theorem fetcher_concatenates_pages (bs : List Body) (h1 : bs ≠ [])
    (h2 : ∀ b ∈ bs, (pageItems b).isSome) :
    make_request (mkSeq bs) [] 0 = .ok (concatItems bs) (bs.length - 1) := by
  have h := make_request_mkSeq bs [] 0 h1 h2
  simpa using h

/-- Witness for C3: a three-page fetch — an array, a single object, an
array — returns the six items in order. -/
theorem fetcher_concatenates_pages_witness :
    make_request (mkSeq [.arr [10, 11], .obj 12, .arr [13, 14, 15]]) [] 0
      = .ok (concatItems [.arr [10, 11], .obj 12, .arr [13, 14, 15]])
          ([Body.arr [10, 11], .obj 12, .arr [13, 14, 15]].length - 1) :=
  fetcher_concatenates_pages [.arr [10, 11], .obj 12, .arr [13, 14, 15]]
    (by decide) (by decide)

/-- C4: the fetcher raises if and only if the request chain reaches a
non-timeout network/HTTP error or a non-empty unparsable body
(`raisesSpec`); a timeout ends pagination returning exactly the items
accumulated so far (so a first-request timeout returns the empty result set),
and an empty response body likewise ends pagination keeping the accumulated
items, without error. -/
theorem fetcher_error_policy :
    (∀ (resps : List Resp) (acc : List Nat) (s : Nat),
        (∃ s2, make_request resps acc s = .raised s2) ↔ raisesSpec resps = true)
    ∧ (∀ (rest : List Resp) (acc : List Nat) (s : Nat),
        make_request (.timeout :: rest) acc s = .ok acc s)
    ∧ (∀ rest : List Resp, make_request (.timeout :: rest) [] 0 = .ok [] 0)
    ∧ (∀ (rest : List Resp) (acc : List Nat) (s : Nat) (n : Bool),
        make_request (.page .empty n :: rest) acc s = .ok acc s) := by
  refine ⟨?_, fun rest acc s => rfl, fun rest => rfl, fun rest acc s n => rfl⟩
  intro resps
  induction resps with
  | nil => intro acc s; simp [make_request, raisesSpec]
  | cons r rest ih =>
    intro acc s
    cases r with
    | timeout => simp [make_request, raisesSpec, raisesReq, continuesReq]
    | httpError => simp [make_request, raisesSpec, raisesReq]
    | page b n =>
      cases b with
      | empty =>
        cases n <;> simp [make_request, raisesSpec, raisesReq, continuesReq, pageItems]
      | invalid => simp [make_request, raisesSpec, raisesReq]
      | arr its =>
        cases n with
        | false => simp [make_request, raisesSpec, raisesReq, continuesReq]
        | true =>
          simp only [make_request, if_pos rfl, raisesSpec, raisesReq, continuesReq,
            pageItems, Option.isSome_some, Bool.false_or, Bool.true_and]
          exact ih (acc ++ its) (s + 1)
      | obj it =>
        cases n with
        | false => simp [make_request, raisesSpec, raisesReq, continuesReq]
        | true =>
          simp only [make_request, if_pos rfl, raisesSpec, raisesReq, continuesReq,
            pageItems, Option.isSome_some, Bool.false_or, Bool.true_and]
          exact ih (acc ++ [it]) (s + 1)

/-- C8 (counterexample): a successful single-page fetch (the page declares no
`next` link) performs zero sleeps, not the one-per-page the claim requires:
`break` on the last page skips the `time.sleep(0.2)` at the bottom of the
loop body. -/
theorem fetcher_no_sleep_after_final_page :
    make_request [.page (.arr [7]) false] [] 0 = .ok [7] 0
      ∧ make_request [.page (.arr [7]) false] [] 0 ≠ .ok [7] 1 := by
  decide

/-- C8 (amended): the 200 ms delay is performed after every successfully
parsed page that declares a `next` link — i.e. between consecutive requests —
and not after the final page, so a successful N-page fetch sleeps N−1 times. -/
theorem fetcher_sleeps_between_pages (bs : List Body) (h1 : bs ≠ [])
    (h2 : ∀ b ∈ bs, (pageItems b).isSome) :
    ∃ its, make_request (mkSeq bs) [] 0 = .ok its (bs.length - 1) := by
  have h := make_request_mkSeq bs [] 0 h1 h2
  exact ⟨concatItems bs, by simpa using h⟩

/-- Witness for C8 (amended): a successful two-page fetch sleeps exactly
once. -/
theorem fetcher_sleeps_between_pages_witness :
    ∃ its, make_request (mkSeq [Body.arr [1], Body.arr [2]]) [] 0
      = .ok its ([Body.arr [1], Body.arr [2]].length - 1) :=
  fetcher_sleeps_between_pages [.arr [1], .arr [2]] (by decide) (by decide)

end Fetcher

namespace Harvester

/-! ### Course Activity Harvester theorems -/

/-- C9: the filename sanitization replaces each non-alphanumeric character of
the course name by exactly one underscore and leaves alphanumeric characters
unchanged — one character in, one character out — and in particular
`"Intro: CS 101!"` becomes `"Intro__CS_101_"`. -/
theorem safe_name_one_for_one :
    safe_name "Intro: CS 101!" = "Intro__CS_101_"
    ∧ (∀ s : String, (safe_name s).length = s.length)
    ∧ (∀ (s : String) (i : Nat) (h1 : i < s.data.length)
         (h2 : i < (safe_name s).data.length),
        (safe_name s).data[i] = if (s.data[i]).isAlphanum then s.data[i] else '_') := by
  refine ⟨rfl, ?_, ?_⟩
  · intro s
    show (s.data.map fun c => if c.isAlphanum then c else '_').length = s.data.length
    exact List.length_map _ _
  · intro s i h1 h2
    simp [safe_name]

/-- Witness for C9: position 1 of `"a!"` — the non-alphanumeric `'!'` —
sanitizes to an underscore. -/
theorem safe_name_one_for_one_witness :
    (safe_name "a!").data.get ⟨1, by decide⟩
      = if (("a!".data.get ⟨1, by decide⟩).isAlphanum) then "a!".data.get ⟨1, by decide⟩
        else '_' :=
  safe_name_one_for_one.2.2 "a!" 1 (by decide) (by decide)

/-- C10: for every environment, `process_course` returns normally — every
exception raised after course-metadata resolution (student enumeration,
output-file opening; per-student errors are already caught inside the loop)
is caught by the outermost handler, so the batch driver never observes a
per-course exception. -/
theorem process_course_never_raises (cid : Int) (env : HarvestEnv) :
    ∃ out, process_course cid env = .ok out := by
  rcases h : processCourseBody cid env with e | out
  · exact ⟨.none, by simp [process_course, h]⟩
  · exact ⟨out, by simp [process_course, h]⟩

/-- C5 (counterexample): course-metadata resolution is NOT the only failure
that aborts the whole per-course task: here the metadata lookup succeeds
(`course = .dict (some "C101")`) but student enumeration raises, and the
task still ends with no output file (the exception is caught by the
outermost handler before the file is opened). -/
theorem students_failure_also_aborts :
    process_course 7 envStudentsFail = .ok .none
      ∧ envStudentsFail.course = .dict (some "C101") :=
  ⟨rfl, rfl⟩

/-- C5 (amended): failure of the course-metadata resolution step (any
exception in `get_course`, or a non-object/empty result) makes
`process_course` return without writing any output file and without raising;
it is not the only such failure, since an exception in student enumeration or
in opening the output file is caught by the outermost handler and likewise
aborts the task without a file. -/
theorem metadata_failure_aborts_silently (cid : Int) (env : HarvestEnv)
    (h : env.course = .fetchErr ∨ env.course = .nonDict) :
    process_course cid env = .ok .none := by
  rcases h with h | h <;> simp [process_course, processCourseBody, h]

/-- Witness for C5 (amended): a failing metadata lookup yields no file and a
normal return. -/
theorem metadata_failure_aborts_silently_witness :
    process_course 7 envMetaFail = .ok .none :=
  metadata_failure_aborts_silently 7 envMetaFail (Or.inl rfl)

/-- C6: in the three-student scenario where student 2's activity fetch
raises, the output file holds the header (implied by `FileOut.file`) and the
rows of students 1 and 3 only; and in general an exception in one student's
activity fetch is caught and processing continues with the next student —
the output is exactly as if that student were absent from the roster. -/
theorem student_failure_isolated :
    (process_course 9 env3
        = .ok (.file (courseFileName 9 "C101")
            [{ student_id := 1, student_name := "S1"
               date := "2024-01-01T00:00:00Z", page_views := 4 },
             { student_id := 3, student_name := "S3"
               date := "2024-01-01T00:00:00Z", page_views := 4 }]))
    ∧ (∀ (cid : Int) (nm : Option String) (act : Int → ActRes)
         (pre post : List Student) (s : Student), act s.id = .fetchRaise →
        process_course cid
            { course := .dict nm, students := .ok (pre ++ s :: post)
              openFile := .ok (), activity := act }
          = process_course cid
            { course := .dict nm, students := .ok (pre ++ post)
              openFile := .ok (), activity := act }) := by
  constructor
  · rfl
  · intro cid nm act pre post s hs
    have h0 : studentRows act s = [] := by
      simp only [studentRows]
      rw [hs]
    simp [process_course, processCourseBody, List.flatMap_append, List.flatMap_cons, h0]

/-- Witness for C6: with the roster holding only the raising student 2, the
output equals the output for an empty roster. -/
theorem student_failure_isolated_witness :
    process_course 9
        { course := .dict (some "C101")
          students := .ok ([] ++ { id := 2, name := some "S2" } :: [])
          openFile := .ok (), activity := actOf }
      = process_course 9
        { course := .dict (some "C101"), students := .ok ([] ++ [])
          openFile := .ok (), activity := actOf } :=
  student_failure_isolated.2 9 (some "C101") actOf [] []
    { id := 2, name := some "S2" } (by decide)

end Harvester
